import Mathlib

/-!
# EduQuest backend (`server.js`): a shallow embedding and its checked properties

The file models the request handlers of `server.js`:

* the upload pipeline (`storage.filename`, `allowedTypes`, `fileFilter`, the `limits`
  of `upload`, the handler of `POST /upload`),
* the listing handler's `originalName` derivation (`GET /uploads`),
* the download handler (`GET /download/:filename`),
* the score handlers (`POST /save-score`, `GET /get-score`).

Strings are Lean strings, `Date.now()` is a natural number of milliseconds, a number is a
finite value or one of the two infinities, file contents are lists of bytes.  Calls into
the platform (JSON, `fs`, Express, multer) are modelled by their documented behaviour; every
such model says so in its comment.
-/

namespace EduQuest

/-! ## Strings: `split` and `join` -/

/-- The JavaScript call `s.split(sep)` for a one-character separator, on the list of
characters of `s`.  The result always has at least one segment. -/
def jsSplit (sep : Char) : List Char → List (List Char)
  | [] => [[]]
  | c :: cs =>
    if c = sep then [] :: jsSplit sep cs
    else
      match jsSplit sep cs with
      | [] => [[c]]
      | seg :: segs => (c :: seg) :: segs

/-- The JavaScript call `segs.join(sep)` for a one-character separator. -/
def jsJoin (sep : Char) : List (List Char) → List Char
  | [] => []
  | [seg] => seg
  | seg :: rest => seg ++ sep :: jsJoin sep rest

/-! ## Upload naming (`storage.filename`, lines 26-30) -/

/-- The template literal of line 28: the decimal rendering of `Date.now()`, a hyphen, and
the original name verbatim.  `Date.now()` is a non-negative whole number of milliseconds,
far below the size at which JavaScript switches to exponent form. -/
def uniqueName (now : Nat) (originalname : String) : String :=
  toString now ++ "-" ++ originalname

/-- The expression of line 81: `file.split("-").slice(1).join("-")`. -/
def originalNameOf (file : String) : String :=
  String.mk (jsJoin '-' ((jsSplit '-' file.data).drop 1))

/-! ## The MIME allow-list and the file filter (lines 34-50) -/

/-- The array `allowedTypes` of lines 34-42, in source order. -/
def allowedTypes : List String :=
  [ "application/pdf",
    "application/vnd.openxmlformats-officedocument.wordprocessingml.document",
    "application/msword",
    "application/vnd.ms-powerpoint",
    "application/vnd.openxmlformats-officedocument.presentationml.presentation",
    "image/jpeg",
    "image/png" ]

/-- The two arguments a file filter hands to its callback `cb(error, accept)`. -/
structure FilterResult where
  error : Option String
  accept : Bool
  deriving DecidableEq, Repr

/-- The message of the `Error` built on line 48. -/
def filterMessage : String := "Only PDF, DOCX, PPTX, JPG, and PNG files are allowed!"

/-- The function `fileFilter` of lines 44-50, applied to `file.mimetype`. -/
def fileFilter (mimetype : String) : FilterResult :=
  if allowedTypes.contains mimetype then
    { error := none, accept := true }
  else
    { error := some filterMessage, accept := false }

/-! ## JSON values, responses and thrown errors -/

/-- A number as `JSON.parse` yields it.  A finite double is given by its rational value
(`-0` and `0` are one value, as they are under `===`); a literal too large for a double,
`1e400` for one, parses to `Infinity`, and `-1e400` to `-Infinity`.  `JSON.parse` never
yields `NaN`.  A literal that is not itself a double reaches memory rounded to one. -/
inductive JNum
  | finite (q : ℚ)
  | posInf
  | negInf
  deriving DecidableEq, Repr

/-- A JSON value as held in memory after `JSON.parse`, in `req.body` or read from the score
file; an object is the list of its own properties in enumeration order. -/
inductive JVal
  | null
  | bool (b : Bool)
  | num (n : JNum)
  | str (s : String)
  | arr (items : List JVal)
  | obj (fields : List (String × JVal))
  deriving Repr

mutual
/-- What `JSON.parse` reads back from the text `JSON.stringify` writes for a value:
`Infinity` and `-Infinity` are written as `null`, inside arrays and objects too; every other
value comes back as it was. -/
def JVal.written : JVal → JVal
  | .num (.finite q) => .num (.finite q)
  | .num _ => .null
  | .arr items => .arr (writtenItems items)
  | .obj fields => .obj (writtenFields fields)
  | v => v
/-- The elements of an array, each as written and read back. -/
def writtenItems : List JVal → List JVal
  | [] => []
  | v :: vs => v.written :: writtenItems vs
/-- The properties of an object, each value as written and read back. -/
def writtenFields : List (String × JVal) → List (String × JVal)
  | [] => []
  | (k, v) :: rest => (k, v.written) :: writtenFields rest
end

mutual
/-- No number inside the value is `Infinity` or `-Infinity`. -/
def JVal.isFinite : JVal → Bool
  | .num (.finite _) => true
  | .num _ => false
  | .arr items => allFinite items
  | .obj fields => fieldsFinite fields
  | _ => true
/-- Every element of the list satisfies `JVal.isFinite`. -/
def allFinite : List JVal → Bool
  | [] => true
  | v :: vs => v.isFinite && allFinite vs
/-- Every property value of the list satisfies `JVal.isFinite`. -/
def fieldsFinite : List (String × JVal) → Bool
  | [] => true
  | (_, v) :: rest => v.isFinite && fieldsFinite rest
end

/-- The content of an uploaded or stored file. -/
abbrev Bytes := List (Fin 256)

/-- What a request ends in.  Platform model of Express: `res.json(v)` without `res.status`
answers 200; the application registers no error-handling middleware, so an error thrown by a
handler or passed on by a middleware is answered by the default error handler, whose reply
is an HTML page with the status the error object carries, 500 when it carries none.  The
errors of `Thrown` carry none; the not-found error of `res.download` carries 404. -/
inductive Response
  /-- The call `res.status(status).json(body)`, with the value handed to it. -/
  | json (status : Nat) (body : JVal)
  /-- The call `res.download(path)` on a regular file: the content travels as an attachment. -/
  | attachment (content : Bytes)
  /-- The reply of the default error handler: not JSON. -/
  | errorPage (status : Nat)
  /-- The route sent nothing itself: `res.download` was handed a directory, reports
  `EISDIR`, and the request goes on to the middleware registered after the route. -/
  | passedOn
  deriving Repr

/-- The HTTP status of a response, when the route produced one. -/
def Response.status : Response → Option Nat
  | .json status _ => some status
  | .attachment _ => some 200
  | .errorPage status => some status
  | .passedOn => none

/-- An exception raised while a handler or the upload middleware runs. -/
inductive Thrown
  /-- The error of `JSON.parse` on text that is not JSON. -/
  | badJson
  /-- A property read on `null`, or a call of something that is not a function. -/
  | typeError
  /-- A failed `fs` call. -/
  | ioError
  /-- The plain `Error` built by `fileFilter`, with its message. -/
  | filterError (message : String)
  /-- The `LIMIT_FILE_SIZE` error of the upload middleware. -/
  | limitFileSize
  deriving DecidableEq, Repr

/-- The reply of the default error handler to any of the errors of `Thrown`. -/
def defaultErrorHandler (_ : Thrown) : Response := .errorPage 500

/-! ## The score file (lines 101-142) -/

/-- The state of `scores.json` as `JSON.parse(fs.readFileSync(scoresFile, "utf-8"))` sees it.
Platform model: text written by `JSON.stringify(v, null, 2)` parses back to `v.written`. -/
inductive ScoreFile
  /-- The file is not there: `readFileSync` throws. -/
  | missing
  /-- The text is not JSON: `JSON.parse` throws. -/
  | unparseable (text : String)
  /-- The text parses to this value. -/
  | parsed (v : JVal)
  deriving Repr

/-- The expression `JSON.parse(fs.readFileSync(scoresFile, "utf-8"))` of lines 117 and 136. -/
def readScores : ScoreFile → Except Thrown JVal
  | .missing => .error .ioError
  | .unparseable _ => .error .badJson
  | .parsed v => .ok v

/-- The body of a request as `express.json()` leaves it in `req.body`: the properties of the
parsed JSON object, the empty list when the request carries no JSON.  The values are the
parsed ones: a number literal is already a double, `1e400` already `Infinity`. -/
abbrev ReqBody := List (String × JVal)

/-- The object literal of lines 119-123, with `Date.now()` and the JSON form of `new Date()`
as read by the handler. -/
def newScore (now : Nat) (date : String) (score : JVal) : JVal :=
  .obj [("id", .num (.finite now)), ("score", score), ("date", .str date)]

/-- The handler of `POST /save-score` (lines 110-132): the response and the score file
afterwards.  `scores.push` exists on arrays only; on any other value the call throws.  The
file ends up holding what `JSON.stringify(scores, null, 2)` wrote. -/
def saveScore (body : ReqBody) (now : Nat) (date : String) (file : ScoreFile) :
    Response × ScoreFile :=
  match body.lookup "score" with
  | none => (.json 400 (.obj [("message", .str "Score is required!")]), file)
  | some score =>
    match readScores file with
    | .error e => (defaultErrorHandler e, file)
    | .ok (.arr items) =>
      let record := newScore now date score
      (.json 200 (.obj [("message", .str "Score saved successfully!"), ("score", record)]),
        .parsed (JVal.written (.arr (items ++ [record]))))
    | .ok _ => (defaultErrorHandler .typeError, file)

/-- The number of UTF-16 code units of a string, its JavaScript `length`. -/
def jsStringLength (s : String) : Nat :=
  s.data.foldl (fun n c => n + (if c.val < 0x10000 then 1 else 2)) 0

/-- The property read `scores.length` of line 137; `none` is `undefined`.  Reading a
property of `null` throws; numbers and booleans have no `length`; an object has one only
as an own property. -/
def jsLength : JVal → Except Thrown (Option JVal)
  | .null => .error .typeError
  | .bool _ => .ok none
  | .num _ => .ok none
  | .str s => .ok (some (.num (.finite (jsStringLength s))))
  | .arr items => .ok (some (.num (.finite items.length)))
  | .obj fields => .ok (fields.lookup "length")

/-- The comparison `x > 0` of line 137.  `undefined` compares as NaN, `null` as 0, `true` as
1, `false` as 0.  A string, array or object operand is first converted by the platform
(`ToPrimitive`, `StringToNumber`); that conversion is the parameter `coerce`. -/
def gtZero (coerce : JVal → Except Thrown Bool) : Option JVal → Except Thrown Bool
  | none => .ok false
  | some .null => .ok false
  | some (.bool b) => .ok b
  | some (.num (.finite q)) => .ok (decide (0 < q))
  | some (.num .posInf) => .ok true
  | some (.num .negInf) => .ok false
  | some v => coerce v

/-- The handler of `GET /get-score` (lines 135-142): the response and the score file
afterwards. -/
def getScore (coerce : JVal → Except Thrown Bool) (file : ScoreFile) : Response × ScoreFile :=
  match readScores file with
  | .error e => (defaultErrorHandler e, file)
  | .ok scores =>
    match jsLength scores >>= gtZero coerce with
    | .error e => (defaultErrorHandler e, file)
    | .ok true => (.json 200 scores, file)
    | .ok false => (.json 200 (.obj [("message", .str "No scores found yet!")]), file)

/-! ## The uploads directory, upload and download (lines 16-98) -/

/-- What sits at a path of the file system. -/
inductive Node
  | file (content : Bytes)
  | dir
  deriving DecidableEq, Repr

/-- The file system as seen from the uploads folder: the node, if any, at
`path.join(uploadFolder, name)`. -/
abbrev Uploads := String → Option Node

/-- The state after a file is written under `name`. -/
def Uploads.write (fs : Uploads) (name : String) (content : Bytes) : Uploads :=
  fun n => if n = name then some (.file content) else fs n

/-- The state after the file under `name` is removed. -/
def Uploads.remove (fs : Uploads) (name : String) : Uploads :=
  fun n => if n = name then none else fs n

/-- The file part of a multipart request, as multer presents it under the form field
`file`.  Platform model of multer: `originalname` is the base name of the name the client
sent, so it holds no path separator. -/
structure FilePart where
  originalname : String
  mimetype : String
  content : Bytes
  deriving DecidableEq, Repr

/-- The object multer leaves in `req.file` once disk storage has stored the part. -/
structure StoredFile where
  originalname : String
  filename : String
  path : String
  deriving DecidableEq, Repr

/-- The value of `limits.fileSize` on line 55. -/
def fileSizeLimit : Nat := 10 * 1024 * 1024

/-- Modelled from the spec: the enforcement of `limits.fileSize`, which happens inside the
multipart library and not in `server.js`.  The payload "must not exceed 10 MiB": a size up
to the limit passes, a larger one fails. -/
def withinFileSize (size : Nat) : Bool := decide (size ≤ fileSizeLimit)

/-- The middleware `upload.single("file")` built on lines 22-56: what it leaves in
`req.file` or the error it passes on, and the uploads folder afterwards.  Platform model of
multer: the filter runs before anything is stored; a part the filter turns down without an
error is skipped; the name comes from `storage.filename`, the folder from
`storage.destination`; a part over the size limit ends in `LIMIT_FILE_SIZE` and what was
written of it is removed. -/
def uploadSingle (uploadFolder : String) (now : Nat) (part : Option FilePart) (fs : Uploads) :
    Except Thrown (Option StoredFile) × Uploads :=
  match part with
  | none => (.ok none, fs)
  | some p =>
    match fileFilter p.mimetype with
    | { error := some message, accept := _ } => (.error (.filterError message), fs)
    | { error := none, accept := false } => (.ok none, fs)
    | { error := none, accept := true } =>
      let filename := uniqueName now p.originalname
      if withinFileSize p.content.length then
        (.ok (some { originalname := p.originalname, filename := filename,
                     path := uploadFolder ++ "/" ++ filename }),
          fs.write filename p.content)
      else
        (.error .limitFileSize, fs.remove filename)

/-- The handler of `POST /upload` proper (lines 59-72), given `req.file`, the `Date.now()`
of line 65 and the JSON form of the `new Date()` of line 70. -/
def uploadHandler (reqFile : Option StoredFile) (now : Nat) (date : String) : Response :=
  match reqFile with
  | none => .json 400 (.obj [("error", .str "No file uploaded")])
  | some f =>
    .json 200 (.obj [("id", .num (.finite now)), ("originalName", .str f.originalname),
      ("filename", .str f.filename), ("path", .str f.path), ("status", .str "Uploaded"),
      ("uploadDate", .str date)])

/-- The route `POST /upload`: the middleware, then the handler, or the default error handler
when the middleware passes an error on.  `stored` is the clock when the name is built,
`now` and `date` the clock when the handler runs. -/
def postUpload (uploadFolder : String) (stored now : Nat) (date : String)
    (part : Option FilePart) (fs : Uploads) : Response × Uploads :=
  match uploadSingle uploadFolder stored part fs with
  | (.error e, fs') => (defaultErrorHandler e, fs')
  | (.ok reqFile, fs') => (uploadHandler reqFile now date, fs')

/-- One element of `fileList` (lines 79-84) for the directory entry `file`; `birthtime` is
the JSON form of `fs.statSync(...).birthtime` for each entry. -/
def listEntry (birthtime : String → String) (file : String) : JVal :=
  .obj [("filename", .str file), ("originalName", .str (originalNameOf file)),
    ("status", .str "Uploaded"), ("uploadDate", .str (birthtime file))]

/-- The handler of `GET /uploads` (lines 75-88); `files` is what `fs.readdir` yields, `none`
when it reports an error. -/
def getUploads (birthtime : String → String) (files : Option (List String)) : Response :=
  match files with
  | none => .json 500 (.obj [("error", .str "Failed to read uploads folder")])
  | some names => .json 200 (.arr (names.map (listEntry birthtime)))

/-- One step of the normalisation that `path.join` applies to an absolute POSIX path, on
the segments kept so far: an empty segment and `.` are dropped, `..` removes the segment
before it (nothing at the root), any other segment is kept. -/
def normStep (kept : List String) (seg : String) : List String :=
  if seg = "" ∨ seg = "." then kept
  else if seg = ".." then kept.dropLast
  else kept ++ [seg]

/-- The segments of `path.join(uploadFolder, filename)` of line 92 on a POSIX system, for
the absolute path `uploadFolder`: the two are joined by `/`, cut at every `/`, and
normalised. -/
def joinSegments (uploadFolder filename : String) : List String :=
  ((jsSplit '/' (uploadFolder ++ "/" ++ filename).data).map String.mk).foldl normStep []

/-- The test `res.download` applies under its default `dotfiles` setting: the last segment
of the path starts with a dot. -/
def isDotfile (segments : List String) : Bool :=
  match segments.getLast? with
  | some seg => seg.data.head? == some '.'
  | none => false

/-- The call `res.download(filePath)` of line 94, given the segments of the path and what
sits there.  Platform model of Express: a path whose last segment starts with a dot is
answered as not found, an error with status 404 that ends at the default error handler;
otherwise a regular file is sent as an attachment, and a directory is not sent. -/
def resDownload (segments : List String) (node : Node) : Response :=
  if isDotfile segments then .errorPage 404
  else
    match node with
    | .file content => .attachment content
    | .dir => .passedOn

/-- The handler of `GET /download/:filename` (lines 91-98): `fs.existsSync` is true of
whatever sits at the path, file or directory. -/
def download (uploadFolder filename : String) (fs : Uploads) : Response × Uploads :=
  match fs filename with
  | some node => (resDownload (joinSegments uploadFolder filename) node, fs)
  | none => (.json 404 (.obj [("error", .str "File not found")]), fs)

/-! ## Vocabulary of the properties -/

/-- The property read `v[key]` on a parsed JSON object; `none` is `undefined`. -/
def JVal.get (v : JVal) (key : String) : Option JVal :=
  match v with
  | .obj fields => fields.lookup key
  | _ => none

/-- The seven MIME types of the allow-list, spelled out. -/
def isListedType (m : String) : Prop :=
  m = "application/pdf" ∨ m = "application/msword" ∨
  m = "application/vnd.openxmlformats-officedocument.wordprocessingml.document" ∨
  m = "application/vnd.ms-powerpoint" ∨
  m = "application/vnd.openxmlformats-officedocument.presentationml.presentation" ∨
  m = "image/jpeg" ∨ m = "image/png"

/-- A response with a status from 400 to 499 whose body is a JSON object carrying a text
under `error` or under `message`. -/
def is4xxJsonMessage : Response → Bool
  | .json status (.obj fields) =>
    decide (400 ≤ status) && decide (status < 500) &&
      (match fields.lookup "error", fields.lookup "message" with
       | some (.str _), _ => true
       | _, some (.str _) => true
       | _, _ => false)
  | _ => false

/-- A response with a status from 500 to 599. -/
def is5xx (r : Response) : Bool :=
  match r.status with
  | some status => decide (500 ≤ status) && decide (status < 600)
  | none => false

/-- The score file holds text that parses to a JSON array. -/
def isJsonArray : ScoreFile → Bool
  | .parsed (.arr _) => true
  | _ => false

/-- The body `{message: "No scores found yet!"}` of line 140. -/
def noScores : JVal := .obj [("message", .str "No scores found yet!")]

/-- The body `{error: "File not found"}` of line 96. -/
def fileNotFound : JVal := .obj [("error", .str "File not found")]

/-- The body of lines 64-71 for a part stored at clock `stored` and answered at clock `now`. -/
def uploadedBody (uploadFolder : String) (stored now : Nat) (date : String)
    (originalname : String) : JVal :=
  .obj [("id", .num (.finite now)), ("originalName", .str originalname),
    ("filename", .str (uniqueName stored originalname)),
    ("path", .str (uploadFolder ++ "/" ++ uniqueName stored originalname)),
    ("status", .str "Uploaded"), ("uploadDate", .str date)]

/-- The value of a list of decimal digit characters, most significant first, on top of the
value `acc` read so far. -/
def decimalValue (acc : Nat) (ds : List Char) : Nat :=
  ds.foldl (fun a c => 10 * a + (c.toNat - 48)) acc

/-! ## Lemmas on `split`, `join` and decimal digits -/

theorem jsSplit_ne_nil (sep : Char) (cs : List Char) : jsSplit sep cs ≠ [] := by
  cases cs with
  | nil => simp [jsSplit]
  | cons c cs =>
    simp only [jsSplit]
    split
    · simp
    · split <;> simp

theorem jsJoin_jsSplit (sep : Char) (cs : List Char) : jsJoin sep (jsSplit sep cs) = cs := by
  induction cs with
  | nil => simp [jsSplit, jsJoin]
  | cons c cs ih =>
    simp only [jsSplit]
    by_cases hc : c = sep
    · simp only [hc, if_true]
      cases h : jsSplit sep cs with
      | nil => exact absurd h (jsSplit_ne_nil sep cs)
      | cons seg segs =>
        rw [h] at ih
        simp [jsJoin, ih]
    · simp only [hc, if_false]
      cases h : jsSplit sep cs with
      | nil => exact absurd h (jsSplit_ne_nil sep cs)
      | cons seg segs =>
        rw [h] at ih
        cases segs with
        | nil =>
          simp only [jsJoin] at ih ⊢
          rw [ih]
        | cons seg2 segs2 =>
          simp only [jsJoin] at ih ⊢
          rw [← ih]
          simp

theorem jsSplit_append_sep (sep : Char) (pre rest : List Char) (hpre : sep ∉ pre) :
    jsSplit sep (pre ++ sep :: rest) = pre :: jsSplit sep rest := by
  induction pre with
  | nil => simp [jsSplit]
  | cons c cs ih =>
    have hc : c ≠ sep := fun h => hpre (by simp [h])
    have hcs : sep ∉ cs := fun h => hpre (by simp [h])
    have h := ih hcs
    simp only [List.cons_append, jsSplit, hc, if_false, List.append_eq, h]

theorem digitChar_ne_hyphen : ∀ d, d < 10 → Nat.digitChar d ≠ '-' := by decide

theorem hyphen_not_mem_toDigitsCore (fuel : Nat) :
    ∀ (n : Nat) (ds : List Char), '-' ∉ ds → '-' ∉ Nat.toDigitsCore 10 fuel n ds := by
  induction fuel with
  | zero => intro n ds h; simpa [Nat.toDigitsCore] using h
  | succ fuel ih =>
    intro n ds h
    have hd : '-' ∉ Nat.digitChar (n % 10) :: ds := by
      intro hm
      rcases List.mem_cons.mp hm with h1 | h1
      · exact digitChar_ne_hyphen _ (Nat.mod_lt _ (by decide)) h1.symm
      · exact h h1
    simp only [Nat.toDigitsCore]
    split
    · exact hd
    · exact ih _ _ hd

theorem not_mem_toDigitsCore (x : Char) (hx : ∀ d, d < 10 → Nat.digitChar d ≠ x)
    (fuel : Nat) :
    ∀ (n : Nat) (ds : List Char), x ∉ ds → x ∉ Nat.toDigitsCore 10 fuel n ds := by
  induction fuel with
  | zero => intro n ds h; simpa [Nat.toDigitsCore] using h
  | succ fuel ih =>
    intro n ds h
    have hd : x ∉ Nat.digitChar (n % 10) :: ds := by
      intro hm
      rcases List.mem_cons.mp hm with h1 | h1
      · exact hx _ (Nat.mod_lt _ (by decide)) h1.symm
      · exact h h1
    simp only [Nat.toDigitsCore]
    split
    · exact hd
    · exact ih _ _ hd

theorem toDigitsCore_ne_nil (fuel : Nat) :
    ∀ (n : Nat) (ds : List Char), ds ≠ [] → Nat.toDigitsCore 10 fuel n ds ≠ [] := by
  induction fuel with
  | zero => intro n ds h; simpa [Nat.toDigitsCore] using h
  | succ fuel ih =>
    intro n ds _
    simp only [Nat.toDigitsCore]
    split
    · simp
    · exact ih _ _ (by simp)

theorem toString_data (t : Nat) : (toString t).data = Nat.toDigits 10 t := rfl

theorem hyphen_not_mem_toString (t : Nat) : '-' ∉ (toString t).data := by
  rw [toString_data]
  exact hyphen_not_mem_toDigitsCore _ _ _ (by simp)

theorem toString_data_ne_nil (t : Nat) : (toString t).data ≠ [] := by
  rw [toString_data]
  unfold Nat.toDigits
  simp only [Nat.toDigitsCore]
  split
  · simp
  · exact toDigitsCore_ne_nil _ _ _ (by simp)

theorem not_mem_toString (x : Char) (hx : ∀ d, d < 10 → Nat.digitChar d ≠ x) (t : Nat) :
    x ∉ (toString t).data := by
  rw [toString_data]
  exact not_mem_toDigitsCore x hx _ _ _ (by simp)

theorem jsSplit_append (sep : Char) (a b : List Char) :
    jsSplit sep (a ++ sep :: b) = jsSplit sep a ++ jsSplit sep b := by
  induction a with
  | nil => simp [jsSplit]
  | cons c cs ih =>
    by_cases hc : c = sep
    · simp only [List.cons_append, jsSplit, hc, if_true, List.append_eq]
      rw [← hc] at ih ⊢
      rw [ih]
    · simp only [List.cons_append, jsSplit, hc, if_false, List.append_eq, ih]
      cases h : jsSplit sep cs with
      | nil => exact absurd h (jsSplit_ne_nil sep cs)
      | cons seg segs => simp

theorem jsSplit_of_not_mem (sep : Char) (cs : List Char) (h : sep ∉ cs) :
    jsSplit sep cs = [cs] := by
  induction cs with
  | nil => rfl
  | cons c cs ih =>
    have hc : c ≠ sep := fun e => h (by simp [e])
    have hcs : sep ∉ cs := fun e => h (by simp [e])
    simp only [jsSplit, hc, if_false, ih hcs]

theorem digitChar_value : ∀ k, k < 10 → (Nat.digitChar k).toNat - 48 = k := by decide

theorem decimalValue_toDigitsCore (fuel : Nat) :
    ∀ (n : Nat) (ds : List Char), n < fuel →
      decimalValue 0 (Nat.toDigitsCore 10 fuel n ds) = decimalValue n ds := by
  induction fuel with
  | zero => intro n ds h; omega
  | succ fuel ih =>
    intro n ds h
    have hv := digitChar_value (n % 10) (Nat.mod_lt _ (by decide))
    simp only [Nat.toDigitsCore]
    split
    · rename_i h0
      have hn : n % 10 = n := by omega
      simp only [decimalValue, List.foldl_cons, hv, Nat.mul_zero, Nat.zero_add]
      rw [hn]
    · rename_i h0
      have hlt : n / 10 < fuel := by omega
      rw [ih _ _ hlt]
      have hn : 10 * (n / 10) + n % 10 = n := Nat.div_add_mod n 10
      simp only [decimalValue, List.foldl_cons, hv, hn]

theorem toString_injective (a b : Nat) (h : toString a = toString b) : a = b := by
  have hd : Nat.toDigits 10 a = Nat.toDigits 10 b := by
    rw [← toString_data, ← toString_data, h]
  have ha := decimalValue_toDigitsCore (a + 1) a [] (Nat.lt_succ_self a)
  have hb := decimalValue_toDigitsCore (b + 1) b [] (Nat.lt_succ_self b)
  simp only [decimalValue, List.foldl_nil] at ha hb
  unfold Nat.toDigits at hd
  rw [hd] at ha
  omega

theorem uniqueName_data (t : Nat) (n : String) :
    (uniqueName t n).data = (toString t).data ++ '-' :: n.data := by
  simp [uniqueName, String.data_append]

theorem jsSplit_uniqueName (t : Nat) (n : String) :
    jsSplit '-' (uniqueName t n).data = (toString t).data :: jsSplit '-' n.data := by
  rw [uniqueName_data]
  exact jsSplit_append_sep '-' _ _ (hyphen_not_mem_toString t)

/-! ## Theorems -/

theorem contains_allowedTypes (m : String) :
    allowedTypes.contains m = true ↔ isListedType m := by
  simp only [allowedTypes, isListedType, List.contains_cons, List.contains_nil, Bool.or_false,
    Bool.or_eq_true, beq_iff_eq]
  tauto

theorem fileFilter_listed (m : String) (h : isListedType m) :
    fileFilter m = { error := none, accept := true } := by
  unfold fileFilter
  rw [if_pos ((contains_allowedTypes m).mpr h)]

theorem fileFilter_unlisted (m : String) (h : ¬ isListedType m) :
    fileFilter m = { error := some filterMessage, accept := false } := by
  unfold fileFilter
  rw [if_neg (fun hb => h ((contains_allowedTypes m).mp hb))]

/-- C1: the file filter accepts a MIME type exactly when it is one of the seven listed
strings; any other type, `text/plain` for one, is turned down with the error of line 48, and
then the upload middleware stores nothing and leaves the uploads folder as it was. -/
theorem fileFilter_allowList (m : String) :
    (fileFilter m = { error := none, accept := true } ↔ isListedType m) ∧
    (fileFilter m = { error := some filterMessage, accept := false } ↔ ¬ isListedType m) ∧
    ((fileFilter m).accept = true ↔ isListedType m) ∧
    (¬ isListedType m → ∀ (folder : String) (stored : Nat) (name : String) (content : Bytes)
        (fs : Uploads),
      uploadSingle folder stored (some (FilePart.mk name m content)) fs =
        (.error (.filterError filterMessage), fs)) := by
  by_cases h : isListedType m
  · simp [fileFilter_listed m h, h]
  · simp [fileFilter_unlisted m h, h, uploadSingle]

/-- Witness for C1: `text/plain` is not listed, is turned down, and nothing is stored. -/
theorem fileFilter_allowList_witness :
    fileFilter "text/plain" = { error := some filterMessage, accept := false } ∧
    uploadSingle "/srv/uploads" 1700000000000
      (some (FilePart.mk "notes.txt" "text/plain" [1, 2]))
      (fun _ => none) = (.error (.filterError filterMessage), fun _ => none) :=
  ⟨(fileFilter_allowList "text/plain").2.1.mpr (by simp [isListedType]),
   (fileFilter_allowList "text/plain").2.2.2 (by simp [isListedType]) _ _ _ _ _⟩


/-- C5: for every timestamp `t` and every original name `n`, the `originalName` derived by
the listing handler from the stored name built by the upload handler is `n` itself. -/
theorem originalName_roundtrip (t : Nat) (n : String) :
    originalNameOf (uniqueName t n) = n ∧
    ∀ birthtime : String → String,
      (listEntry birthtime (uniqueName t n)).get "originalName" = some (.str n) ∧
      (listEntry birthtime (uniqueName t n)).get "filename" = some (.str (uniqueName t n)) := by
  have h : originalNameOf (uniqueName t n) = n := by
    unfold originalNameOf
    rw [jsSplit_uniqueName]
    simp [jsJoin_jsSplit]
  refine ⟨h, fun birthtime => ⟨?_, rfl⟩⟩
  simp [listEntry, JVal.get, List.lookup, h]

/-- C10: stored names built from distinct timestamps are distinct strings, whatever the
original names; equal timestamps and equal original names give equal stored names. -/
theorem uniqueName_distinct (t1 t2 : Nat) (n1 n2 : String) :
    (t1 ≠ t2 → uniqueName t1 n1 ≠ uniqueName t2 n2) ∧
    (t1 = t2 → n1 = n2 → uniqueName t1 n1 = uniqueName t2 n2) := by
  refine ⟨fun hne heq => hne ?_, fun h1 h2 => by rw [h1, h2]⟩
  have h := congrArg (fun s => jsSplit '-' s.data) heq
  simp only [jsSplit_uniqueName] at h
  have hd : (toString t1).data = (toString t2).data := (List.cons.inj h).1
  have hs : toString t1 = toString t2 := by
    have := congrArg String.mk hd
    simpa using this
  exact toString_injective t1 t2 hs

/-- Witness for C10: two uploads of `a-1.pdf` one millisecond apart, and the same upload
twice in one millisecond. -/
theorem uniqueName_distinct_witness :
    uniqueName 1700000000000 "a-1.pdf" ≠ uniqueName 1700000000001 "a-1.pdf" ∧
    uniqueName 1700000000000 "a-1.pdf" = uniqueName 1700000000000 "a-1.pdf" :=
  ⟨(uniqueName_distinct 1700000000000 1700000000001 "a-1.pdf" "a-1.pdf").1 (by decide),
   (uniqueName_distinct 1700000000000 1700000000000 "a-1.pdf" "a-1.pdf").2 rfl rfl⟩

/-! ### Scores -/

theorem jsStringLength_pos (s : String) (h : s ≠ "") : 0 < jsStringLength s := by
  have step : ∀ (cs : List Char) (a : Nat),
      a ≤ cs.foldl (fun n c => n + (if c.val < 0x10000 then 1 else 2)) a := by
    intro cs
    induction cs with
    | nil => intro a; simp
    | cons c cs ih =>
      intro a
      simp only [List.foldl_cons]
      refine Nat.le_trans ?_ (ih _)
      omega
  cases hs : s.data with
  | nil => exact absurd (String.ext hs) h
  | cons c cs =>
    simp only [jsStringLength, hs, List.foldl_cons]
    refine Nat.lt_of_lt_of_le ?_ (step cs _)
    split <;> omega

theorem getScore_nil (coerce : JVal → Except Thrown Bool) :
    getScore coerce (.parsed (.arr [])) = (.json 200 noScores, .parsed (.arr [])) := rfl

theorem getScore_cons (coerce : JVal → Except Thrown Bool) (x : JVal) (xs : List JVal) :
    getScore coerce (.parsed (.arr (x :: xs))) =
      (.json 200 (.arr (x :: xs)), .parsed (.arr (x :: xs))) := by
  have hpos : decide ((0 : ℚ) < ((x :: xs).length : Nat)) = true := by
    simp only [decide_eq_true_eq, Nat.cast_pos, List.length_cons]
    omega
  simp only [getScore, readScores, jsLength, gtZero, bind, Except.bind, hpos]

theorem getScore_ne_nil (coerce : JVal → Except Thrown Bool) (s : List JVal) (h : s ≠ []) :
    getScore coerce (.parsed (.arr s)) = (.json 200 (.arr s), .parsed (.arr s)) := by
  cases s with
  | nil => exact absurd rfl h
  | cons x xs => exact getScore_cons coerce x xs

mutual
theorem written_of_isFinite : ∀ v : JVal, v.isFinite = true → v.written = v
  | .null, _ => rfl
  | .bool _, _ => rfl
  | .str _, _ => rfl
  | .num (.finite _), _ => rfl
  | .num .posInf, h => by simp [JVal.isFinite] at h
  | .num .negInf, h => by simp [JVal.isFinite] at h
  | .arr items, h => by
    simp only [JVal.isFinite] at h
    simp only [JVal.written, writtenItems_of_allFinite items h]
  | .obj fields, h => by
    simp only [JVal.isFinite] at h
    simp only [JVal.written, writtenFields_of_fieldsFinite fields h]
theorem writtenItems_of_allFinite :
    ∀ vs : List JVal, allFinite vs = true → writtenItems vs = vs
  | [], _ => rfl
  | v :: vs, h => by
    simp only [allFinite, Bool.and_eq_true] at h
    simp only [writtenItems, written_of_isFinite v h.1, writtenItems_of_allFinite vs h.2]
theorem writtenFields_of_fieldsFinite :
    ∀ fields : List (String × JVal), fieldsFinite fields = true → writtenFields fields = fields
  | [], _ => rfl
  | (k, v) :: rest, h => by
    simp only [fieldsFinite, Bool.and_eq_true] at h
    simp only [writtenFields, written_of_isFinite v h.1,
      writtenFields_of_fieldsFinite rest h.2]
end

theorem writtenItems_eq_map (vs : List JVal) : writtenItems vs = vs.map JVal.written := by
  induction vs with
  | nil => rfl
  | cons v vs ih => simp [writtenItems, ih]

theorem newScore_written (now : Nat) (date : String) (v : JVal) :
    (newScore now date v).written = newScore now date v.written := rfl

theorem saveScore_parsed_arr (s : List JVal) (body : ReqBody) (v : JVal) (now : Nat)
    (date : String) (h : body.lookup "score" = some v) :
    (saveScore body now date (.parsed (.arr s))).2 =
      .parsed (.arr (s.map JVal.written ++ [newScore now date v.written])) := by
  have hw : (JVal.arr (s ++ [newScore now date v])).written =
      .arr (s.map JVal.written ++ [newScore now date v.written]) := by
    show JVal.arr (writtenItems (s ++ [newScore now date v])) = _
    rw [writtenItems_eq_map, List.map_append, List.map_cons, List.map_nil, newScore_written]
  simp only [saveScore, h, readScores, hw]

/-- C2, as stated, fails: the body `{"score": 1e400}` has a `score`, the number `Infinity`,
and on an empty score file save-score stores one record whose `score` is `null`, not the
value supplied. -/
theorem saveScore_appends_counterexample :
    List.lookup "score" [("score", JVal.num .posInf)] = some (.num .posInf) ∧
    (saveScore [("score", .num .posInf)] 1700000000000 "2023-11-14T22:13:20.000Z"
        (.parsed (.arr []))).2 =
      .parsed (.arr [newScore 1700000000000 "2023-11-14T22:13:20.000Z" .null]) ∧
    (newScore 1700000000000 "2023-11-14T22:13:20.000Z" .null).get "score" = some .null ∧
    JVal.null ≠ .num .posInf :=
  ⟨rfl, rfl, rfl, by simp⟩

/-- C2, amended: when the score file holds the array `s` and the parsed body has a `score`,
whatever its value, save-score leaves the file holding `s` followed by one new record, each
as `JSON.stringify` writes it, that is with `Infinity` and `-Infinity` turned into `null`,
and get-score right afterwards returns that array.  When `s` and the score hold finite
numbers only, the file holds `s` itself followed by one record with the supplied score, the
records of `s` keep their positions, and get-score returns that array, of length `|s| + 1`,
whose last element carries the score. -/
theorem saveScore_appends (coerce : JVal → Except Thrown Bool) (s : List JVal) (body : ReqBody)
    (v : JVal) (now : Nat) (date : String) (h : body.lookup "score" = some v) :
    (saveScore body now date (.parsed (.arr s))).2 =
      .parsed (.arr (s.map JVal.written ++ [newScore now date v.written])) ∧
    (getScore coerce (saveScore body now date (.parsed (.arr s))).2).1 =
      .json 200 (.arr (s.map JVal.written ++ [newScore now date v.written])) ∧
    (s.map JVal.written ++ [newScore now date v.written]).length = s.length + 1 ∧
    (newScore now date v.written).get "score" = some v.written ∧
    (allFinite s = true → v.isFinite = true →
      (saveScore body now date (.parsed (.arr s))).2 =
        .parsed (.arr (s ++ [newScore now date v])) ∧
      (∀ i, i < s.length → (s ++ [newScore now date v])[i]? = s[i]?) ∧
      (getScore coerce (saveScore body now date (.parsed (.arr s))).2).1 =
        .json 200 (.arr (s ++ [newScore now date v])) ∧
      (s ++ [newScore now date v]).length = s.length + 1 ∧
      (s ++ [newScore now date v]).getLast? = some (newScore now date v) ∧
      (newScore now date v).get "score" = some v) := by
  have hsave := saveScore_parsed_arr s body v now date h
  have hget : (getScore coerce (saveScore body now date (.parsed (.arr s))).2).1 =
      .json 200 (.arr (s.map JVal.written ++ [newScore now date v.written])) := by
    rw [hsave, getScore_ne_nil coerce _ (by simp)]
  refine ⟨hsave, hget, by simp, rfl, ?_⟩
  intro hs hv
  have h1 : s.map JVal.written = s := by
    rw [← writtenItems_eq_map]
    exact writtenItems_of_allFinite s hs
  have h2 : v.written = v := written_of_isFinite v hv
  rw [h1, h2] at hsave hget
  refine ⟨hsave, ?_, hget, by simp, by simp, rfl⟩
  intro i hi
  exact List.getElem?_append_left hi

/-- Witness for C2, amended: saving `{score: 42}` on top of one earlier record. -/
theorem saveScore_appends_witness :
    (saveScore [("score", .num (.finite 42))] 1700000000000 "2023-11-14T22:13:20.000Z"
        (.parsed (.arr [.num (.finite 7)]))).2 =
      .parsed (.arr ([.num (.finite 7)] ++ [newScore 1700000000000
        "2023-11-14T22:13:20.000Z" (.num (.finite 42))])) ∧
    (newScore 1700000000000 "2023-11-14T22:13:20.000Z" (.num (.finite 42))).get "score" =
      some (.num (.finite 42)) :=
  ⟨((saveScore_appends (fun _ => .ok false) [.num (.finite 7)]
      [("score", .num (.finite 42))] (.num (.finite 42)) 1700000000000
      "2023-11-14T22:13:20.000Z" rfl).2.2.2.2 rfl rfl).1,
   ((saveScore_appends (fun _ => .ok false) [.num (.finite 7)]
      [("score", .num (.finite 42))] (.num (.finite 42)) 1700000000000
      "2023-11-14T22:13:20.000Z" rfl).2.2.2.2 rfl rfl).2.2.2.2.2⟩

theorem saveScore_no_score (file : ScoreFile) (body : ReqBody) (now : Nat) (date : String)
    (h : body.lookup "score" = none) :
    saveScore body now date file =
      (.json 400 (.obj [("message", .str "Score is required!")]), file) := by
  simp [saveScore, h]

/-- C3: whatever the score file holds, a body without a `score` gets status 400 with the
message "Score is required!", and the score file stays exactly as it was. -/
theorem saveScore_requires_score (file : ScoreFile) (body : ReqBody) (now : Nat)
    (date : String) (h : body.lookup "score" = none) :
    saveScore body now date file =
      (.json 400 (.obj [("message", .str "Score is required!")]), file) :=
  saveScore_no_score file body now date h

/-- Witness for C3: a body with another field only, on a file with one record. -/
theorem saveScore_requires_score_witness :
    saveScore [("points", .num (.finite 3))] 1700000000000 "2023-11-14T22:13:20.000Z"
        (.parsed (.arr [.num (.finite 7)])) =
      (.json 400 (.obj [("message", .str "Score is required!")]),
        .parsed (.arr [.num (.finite 7)])) :=
  saveScore_requires_score (.parsed (.arr [.num (.finite 7)]))
    [("points", .num (.finite 3))] 1700000000000
    "2023-11-14T22:13:20.000Z" rfl

/-- C4: when the score file holds the array `s`, get-score answers 200 with `s` itself when
`s` is not empty and with the message-only object when it is empty, which is neither an
empty array nor an object with a `scores` field; the score file is unchanged either way. -/
theorem getScore_array (coerce : JVal → Except Thrown Bool) (s : List JVal) :
    (s ≠ [] → getScore coerce (.parsed (.arr s)) = (.json 200 (.arr s), .parsed (.arr s))) ∧
    (s = [] → getScore coerce (.parsed (.arr s)) = (.json 200 noScores, .parsed (.arr s))) ∧
    (getScore coerce (.parsed (.arr s))).2 = .parsed (.arr s) ∧
    noScores ≠ .arr [] ∧ noScores.get "scores" = none ∧
    noScores = .obj [("message", .str "No scores found yet!")] := by
  refine ⟨?_, ?_, ?_, ?_, rfl, rfl⟩
  · intro h
    exact getScore_ne_nil coerce s h
  · intro h
    subst h
    exact getScore_nil coerce
  · cases s with
    | nil => rfl
    | cons x xs => rw [getScore_cons]
  · simp [noScores]

/-- Witness for C4: a file with one record, and the empty file. -/
theorem getScore_array_witness :
    getScore (fun _ => .ok false) (.parsed (.arr [.num (.finite 7)])) =
      (.json 200 (.arr [.num (.finite 7)]), .parsed (.arr [.num (.finite 7)])) ∧
    getScore (fun _ => .ok false) (.parsed (.arr [])) =
      (.json 200 noScores, .parsed (.arr [])) :=
  ⟨(getScore_array (fun _ => .ok false) [.num (.finite 7)]).1 (by simp),
   (getScore_array (fun _ => .ok false) []).2.1 rfl⟩

/-- C7, as stated, fails: a score file holding the JSON object `{}` does not parse to an
array, yet get-score answers 200 with the message-only payload, not a 5xx error. -/
theorem corrupt_score_file_counterexample :
    isJsonArray (.parsed (.obj [])) = false ∧
    (∀ coerce, (getScore coerce (.parsed (.obj []))).1 = .json 200 noScores) ∧
    is5xx (.json 200 noScores) = false :=
  ⟨rfl, fun _ => rfl, rfl⟩

theorem saveScore_not_array (file : ScoreFile) (body : ReqBody) (v : JVal) (now : Nat)
    (date : String) (h : isJsonArray file = false) (hs : body.lookup "score" = some v) :
    saveScore body now date file = (.errorPage 500, file) := by
  cases file with
  | missing => simp [saveScore, hs, readScores, defaultErrorHandler]
  | unparseable t => simp [saveScore, hs, readScores, defaultErrorHandler]
  | parsed j =>
    cases j with
    | arr items => simp [isJsonArray] at h
    | _ => simp [saveScore, hs, readScores, defaultErrorHandler]

/-- C7, amended: when the score file does not hold a JSON array, save-score with a score
present answers 500 and leaves the file alone.  Get-score answers 500 when the file is
missing, is not JSON, or holds `null`; for a number, a boolean, the empty string or an object
without a `length` property it answers 200 with the message-only payload, and for a
non-empty string it answers 200 with that string. -/
theorem corrupt_score_file (coerce : JVal → Except Thrown Bool) (file : ScoreFile)
    (body : ReqBody) (v : JVal) (now : Nat) (date : String)
    (h : isJsonArray file = false) (hs : body.lookup "score" = some v) :
    saveScore body now date file = (.errorPage 500, file) ∧
    is5xx (.errorPage 500) = true ∧
    getScore coerce .missing = (.errorPage 500, .missing) ∧
    (∀ t, getScore coerce (.unparseable t) = (.errorPage 500, .unparseable t)) ∧
    getScore coerce (.parsed .null) = (.errorPage 500, .parsed .null) ∧
    (∀ n, getScore coerce (.parsed (.num n)) = (.json 200 noScores, .parsed (.num n))) ∧
    (∀ b, getScore coerce (.parsed (.bool b)) = (.json 200 noScores, .parsed (.bool b))) ∧
    (∀ fields, fields.lookup "length" = none →
      getScore coerce (.parsed (.obj fields)) = (.json 200 noScores, .parsed (.obj fields))) ∧
    getScore coerce (.parsed (.str "")) = (.json 200 noScores, .parsed (.str "")) ∧
    (∀ s, s ≠ "" →
      getScore coerce (.parsed (.str s)) = (.json 200 (.str s), .parsed (.str s))) := by
  refine ⟨saveScore_not_array file body v now date h hs, rfl, rfl, fun _ => rfl, rfl,
    fun _ => rfl, fun _ => rfl, ?_, rfl, ?_⟩
  · intro fields hf
    simp [getScore, readScores, jsLength, gtZero, bind, Except.bind, hf, noScores]
  · intro s hne
    have hpos : decide ((0 : ℚ) < (jsStringLength s : Nat)) = true := by
      simp only [decide_eq_true_eq, Nat.cast_pos]
      exact jsStringLength_pos s hne
    simp only [getScore, readScores, jsLength, gtZero, bind, Except.bind, hpos]

/-- Witness for C7, amended: the file holds `{}` and the body is `{score: 42}`. -/
theorem corrupt_score_file_witness :
    saveScore [("score", .num (.finite 42))] 1700000000000 "2023-11-14T22:13:20.000Z"
        (.parsed (.obj [])) = (.errorPage 500, .parsed (.obj [])) ∧
    getScore (fun _ => .ok false) (.parsed (.obj [])) =
      (.json 200 noScores, .parsed (.obj [])) :=
  ⟨(corrupt_score_file (fun _ => .ok false) (.parsed (.obj [])) [("score", .num (.finite 42))]
      (.num (.finite 42)) 1700000000000 "2023-11-14T22:13:20.000Z" rfl rfl).1,
   (corrupt_score_file (fun _ => .ok false) (.parsed (.obj [])) [("score", .num (.finite 42))]
      (.num (.finite 42)) 1700000000000 "2023-11-14T22:13:20.000Z" rfl
      rfl).2.2.2.2.2.2.2.1 [] rfl⟩

/-! ### Upload and download -/

theorem postUpload_unlisted (folder : String) (stored now : Nat) (date : String)
    (name mimetype : String) (content : Bytes) (fs : Uploads) (h : ¬ isListedType mimetype) :
    postUpload folder stored now date (some (FilePart.mk name mimetype content)) fs =
      (.errorPage 500, fs) := by
  simp [postUpload, uploadSingle, fileFilter_unlisted _ h, defaultErrorHandler]

theorem postUpload_within (folder : String) (stored now : Nat) (date : String)
    (name mimetype : String) (content : Bytes) (fs : Uploads) (h : isListedType mimetype)
    (hsize : content.length ≤ fileSizeLimit) :
    postUpload folder stored now date (some (FilePart.mk name mimetype content)) fs =
      (.json 200 (uploadedBody folder stored now date name),
        fs.write (uniqueName stored name) content) := by
  simp [postUpload, uploadSingle, fileFilter_listed _ h, withinFileSize, hsize, uploadHandler,
    uploadedBody]

theorem postUpload_over (folder : String) (stored now : Nat) (date : String)
    (name mimetype : String) (content : Bytes) (fs : Uploads) (h : isListedType mimetype)
    (hsize : fileSizeLimit < content.length) :
    postUpload folder stored now date (some (FilePart.mk name mimetype content)) fs =
      (.errorPage 500, fs.remove (uniqueName stored name)) := by
  have hn : ¬ content.length ≤ fileSizeLimit := by omega
  simp [postUpload, uploadSingle, fileFilter_listed _ h, withinFileSize, hn,
    defaultErrorHandler]

theorem write_same (fs : Uploads) (name : String) (content : Bytes) :
    fs.write name content name = some (.file content) := by
  simp [Uploads.write]

/-- C6, as stated, fails: an upload of type `text/plain` is answered by the default error
handler with status 500 and a body that is not JSON. -/
theorem validation_replies_counterexample :
    (postUpload "/srv/uploads" 1700000000000 1700000000001 "2023-11-14T22:13:20.001Z"
      (some (FilePart.mk "notes.txt" "text/plain" [1, 2])) (fun _ => none)).1 =
        .errorPage 500 ∧
    is4xxJsonMessage (.errorPage 500) = false :=
  ⟨congrArg Prod.fst (postUpload_unlisted _ _ _ _ _ _ _ _ (by simp [isListedType])), rfl⟩

/-- C6, amended: the two failures the handlers test themselves, a missing file on
`POST /upload` and a missing score on `POST /save-score`, get status 400 and a JSON body
with a readable text; a file of an unlisted MIME type and a file over the size limit are
turned into errors by the upload middleware and answered by the default error handler with
status 500 and a body that is not JSON. -/
theorem validation_replies (folder : String) (stored now : Nat) (date : String)
    (fs : Uploads) (file : ScoreFile) (body : ReqBody) (name mimetype : String)
    (content : Bytes) :
    postUpload folder stored now date none fs =
      (.json 400 (.obj [("error", .str "No file uploaded")]), fs) ∧
    is4xxJsonMessage (.json 400 (.obj [("error", .str "No file uploaded")])) = true ∧
    (body.lookup "score" = none →
      saveScore body now date file =
        (.json 400 (.obj [("message", .str "Score is required!")]), file)) ∧
    is4xxJsonMessage (.json 400 (.obj [("message", .str "Score is required!")])) = true ∧
    (¬ isListedType mimetype →
      (postUpload folder stored now date (some (FilePart.mk name mimetype content)) fs).1 =
        .errorPage 500) ∧
    (isListedType mimetype → fileSizeLimit < content.length →
      (postUpload folder stored now date (some (FilePart.mk name mimetype content)) fs).1 =
        .errorPage 500) ∧
    is4xxJsonMessage (.errorPage 500) = false ∧ is5xx (.errorPage 500) = true := by
  refine ⟨rfl, rfl, ?_, rfl, ?_, ?_, rfl, rfl⟩
  · intro h
    exact saveScore_no_score file body now date h
  · intro h
    rw [postUpload_unlisted _ _ _ _ _ _ _ _ h]
  · intro h hsize
    rw [postUpload_over _ _ _ _ _ _ _ _ h hsize]

/-- Witness for C6, amended: an empty body, a `text/plain` part, and a PDF one byte over
the limit. -/
theorem validation_replies_witness :
    saveScore [] 1700000000001 "2023-11-14T22:13:20.001Z" (.parsed (.arr [])) =
      (.json 400 (.obj [("message", .str "Score is required!")]), .parsed (.arr [])) ∧
    (postUpload "/srv/uploads" 1700000000000 1700000000001 "2023-11-14T22:13:20.001Z"
      (some (FilePart.mk "notes.txt" "text/plain" [1, 2])) (fun _ => none)).1 =
        .errorPage 500 ∧
    (postUpload "/srv/uploads" 1700000000000 1700000000001 "2023-11-14T22:13:20.001Z"
      (some (FilePart.mk "big.pdf" "application/pdf" (List.replicate 10485761 0)))
      (fun _ => none)).1 = .errorPage 500 :=
  ⟨(validation_replies "/srv/uploads" 1700000000000 1700000000001 "2023-11-14T22:13:20.001Z"
      (fun _ => none) (.parsed (.arr [])) [] "notes.txt" "text/plain" [1, 2]).2.2.1 rfl,
   (validation_replies "/srv/uploads" 1700000000000 1700000000001 "2023-11-14T22:13:20.001Z"
      (fun _ => none) (.parsed (.arr [])) [] "notes.txt" "text/plain" [1, 2]).2.2.2.2.1
      (by simp [isListedType]),
   (validation_replies "/srv/uploads" 1700000000000 1700000000001 "2023-11-14T22:13:20.001Z"
      (fun _ => none) (.parsed (.arr [])) [] "big.pdf" "application/pdf"
      (List.replicate 10485761 0)).2.2.2.2.2.1 (by simp [isListedType])
      (by simp only [List.length_replicate]; decide)⟩

/-- C8: for a part of a listed MIME type, `POST /upload` answers 200 exactly when the
payload has at most 10 * 1024 * 1024 = 10485760 bytes; the success body has status
"Uploaded", the uploaded name as `originalName` and the timestamped name as `filename`, and
right afterwards the uploads folder holds the payload under that `filename`; a larger
payload is answered by an error. -/
theorem upload_size_limit (folder : String) (stored now : Nat) (date : String)
    (name mimetype : String) (content : Bytes) (fs : Uploads) (h : isListedType mimetype) :
    fileSizeLimit = 10485760 ∧
    ((postUpload folder stored now date (some (FilePart.mk name mimetype content)) fs).1.status
        = some 200 ↔ content.length ≤ 10485760) ∧
    (content.length ≤ 10485760 →
      (postUpload folder stored now date (some (FilePart.mk name mimetype content)) fs).1 =
        .json 200 (uploadedBody folder stored now date name) ∧
      (postUpload folder stored now date (some (FilePart.mk name mimetype content)) fs).2
        (uniqueName stored name) = some (.file content)) ∧
    (10485760 < content.length →
      (postUpload folder stored now date (some (FilePart.mk name mimetype content)) fs).1 =
        .errorPage 500) ∧
    (uploadedBody folder stored now date name).get "status" = some (.str "Uploaded") ∧
    (uploadedBody folder stored now date name).get "originalName" = some (.str name) ∧
    (uploadedBody folder stored now date name).get "filename" =
      some (.str (uniqueName stored name)) := by
  have hlimit : fileSizeLimit = 10485760 := by decide
  refine ⟨hlimit, ?_, ?_, ?_, rfl, rfl, rfl⟩
  · by_cases hsize : content.length ≤ 10485760
    · rw [postUpload_within _ _ _ _ _ _ _ _ h (by omega)]
      simp [Response.status, hsize]
    · rw [postUpload_over _ _ _ _ _ _ _ _ h (by omega)]
      simp [Response.status, hsize]
  · intro hsize
    rw [postUpload_within _ _ _ _ _ _ _ _ h (by omega)]
    exact ⟨rfl, write_same _ _ _⟩
  · intro hsize
    rw [postUpload_over _ _ _ _ _ _ _ _ h (by omega)]

/-- Witness for C8: a PDF of exactly 10485760 bytes is stored, one of 10485761 is not. -/
theorem upload_size_limit_witness :
    ((postUpload "/srv/uploads" 1700000000000 1700000000001 "2023-11-14T22:13:20.001Z"
      (some (FilePart.mk "a.pdf" "application/pdf" (List.replicate 10485760 0)))
      (fun _ => none)).1 =
        .json 200 (uploadedBody "/srv/uploads" 1700000000000 1700000000001
          "2023-11-14T22:13:20.001Z" "a.pdf") ∧
     (postUpload "/srv/uploads" 1700000000000 1700000000001 "2023-11-14T22:13:20.001Z"
      (some (FilePart.mk "a.pdf" "application/pdf" (List.replicate 10485760 0)))
      (fun _ => none)).2 (uniqueName 1700000000000 "a.pdf") =
        some (.file (List.replicate 10485760 0))) ∧
    (postUpload "/srv/uploads" 1700000000000 1700000000001 "2023-11-14T22:13:20.001Z"
      (some (FilePart.mk "a.pdf" "application/pdf" (List.replicate 10485761 0)))
      (fun _ => none)).1 = .errorPage 500 :=
  ⟨(upload_size_limit "/srv/uploads" 1700000000000 1700000000001 "2023-11-14T22:13:20.001Z"
      "a.pdf" "application/pdf" (List.replicate 10485760 0) (fun _ => none)
      (by simp [isListedType])).2.2.1
      (by simp only [List.length_replicate, le_refl]),
   (upload_size_limit "/srv/uploads" 1700000000000 1700000000001 "2023-11-14T22:13:20.001Z"
      "a.pdf" "application/pdf" (List.replicate 10485761 0) (fun _ => none)
      (by simp [isListedType])).2.2.2.1
      (by simp only [List.length_replicate]; decide)⟩

theorem uniqueName_plain (t : Nat) (n : String) (hn : '/' ∉ n.data) :
    '/' ∉ (uniqueName t n).data ∧ uniqueName t n ≠ "" ∧ uniqueName t n ≠ "." ∧
    uniqueName t n ≠ ".." ∧ (uniqueName t n).data.head? ≠ some '.' := by
  have hslash : '/' ∉ (toString t).data := not_mem_toString '/' (by decide) t
  have hdot : '.' ∉ (toString t).data := not_mem_toString '.' (by decide) t
  have hmem : '-' ∈ (uniqueName t n).data := by
    rw [uniqueName_data]
    simp
  refine ⟨?_, ?_, ?_, ?_, ?_⟩
  · rw [uniqueName_data]
    intro h
    rcases List.mem_append.mp h with h1 | h1
    · exact hslash h1
    · rcases List.mem_cons.mp h1 with h2 | h2
      · exact absurd h2 (by decide)
      · exact hn h2
  · intro h
    rw [h] at hmem
    simp at hmem
  · intro h
    rw [h] at hmem
    simp at hmem
  · intro h
    rw [h] at hmem
    simp at hmem
  · rw [uniqueName_data]
    cases hd : (toString t).data with
    | nil => exact absurd hd (toString_data_ne_nil t)
    | cons c cs =>
      rw [hd] at hdot
      intro h
      simp only [List.cons_append, List.head?_cons, Option.some.injEq] at h
      exact hdot (by simp [h])

theorem joinSegments_getLast (folder f : String) (h1 : '/' ∉ f.data) (h2 : f ≠ "")
    (h3 : f ≠ ".") (h4 : f ≠ "..") : (joinSegments folder f).getLast? = some f := by
  have hdata : (folder ++ "/" ++ f).data = folder.data ++ '/' :: f.data := by
    simp [String.data_append]
  unfold joinSegments
  rw [hdata, jsSplit_append, jsSplit_of_not_mem '/' f.data h1, List.map_append,
    List.foldl_append]
  simp only [List.map_cons, List.map_nil, List.foldl_cons, List.foldl_nil]
  have hf : String.mk f.data = f := rfl
  rw [hf]
  simp [normStep, h2, h3, h4]

theorem isDotfile_uniqueName (folder : String) (t : Nat) (n : String)
    (hn : '/' ∉ n.data) : isDotfile (joinSegments folder (uniqueName t n)) = false := by
  obtain ⟨h1, h2, h3, h4, h5⟩ := uniqueName_plain t n hn
  unfold isDotfile
  rw [joinSegments_getLast folder _ h1 h2 h3 h4]
  simpa using h5

/-- C9, as stated, fails twice over.  With a directory at `uploads/sub` there is no file to
send, yet the handler does not answer 404 "File not found" and sends no content; with a
regular file at `uploads/.hidden` the file exists, yet its content is not sent: the reply is
the 404 page of the default error handler. -/
theorem download_counterexample :
    (∀ content, (fun n => if n = "sub" then some Node.dir else none : Uploads) "sub" ≠
      some (.file content)) ∧
    (download "/srv/uploads" "sub" (fun n => if n = "sub" then some Node.dir else none)).1 ≠
      .json 404 fileNotFound ∧
    (∀ content, (download "/srv/uploads" "sub"
      (fun n => if n = "sub" then some Node.dir else none)).1 ≠ .attachment content) ∧
    (fun n => if n = ".hidden" then some (Node.file [1, 2]) else none : Uploads) ".hidden" =
      some (.file [1, 2]) ∧
    (download "/srv/uploads" ".hidden"
      (fun n => if n = ".hidden" then some (Node.file [1, 2]) else none)).1 =
        .errorPage 404 := by
  have hsub : isDotfile (joinSegments "/srv/uploads" "sub") = false := by decide
  have hhid : isDotfile (joinSegments "/srv/uploads" ".hidden") = true := by decide
  refine ⟨?_, ?_, ?_, ?_, ?_⟩
  · intro content
    simp
  · simp [download, resDownload, hsub]
  · intro content
    simp [download, resDownload, hsub]
  · simp
  · simp [download, resDownload, hhid]

/-- C9, amended: for every requested name and every state, the handler answers 404 with
`{error: "File not found"}` when nothing exists at `uploads/{f}`; when something exists
there and the last segment of the path starts with a dot, `res.download` answers with the
404 page of the default error handler; otherwise it sends the content of a regular file
byte for byte, and a directory is handed to `res.download` without a 404 and without
content.  The state is unchanged, and the `filename` returned by an upload, whose original
name has no path separator, downloads the uploaded bytes. -/
theorem download_spec (folder f : String) (fs : Uploads) :
    (∀ content, fs f = some (.file content) → isDotfile (joinSegments folder f) = false →
      download folder f fs = (.attachment content, fs)) ∧
    (fs f = none → download folder f fs = (.json 404 fileNotFound, fs)) ∧
    (fs f = some .dir → isDotfile (joinSegments folder f) = false →
      download folder f fs = (.passedOn, fs)) ∧
    (∀ node, fs f = some node → isDotfile (joinSegments folder f) = true →
      download folder f fs = (.errorPage 404, fs)) ∧
    (download folder f fs).2 = fs ∧
    fileNotFound = .obj [("error", .str "File not found")] ∧
    (∀ (stored now : Nat) (date : String) (name mimetype : String) (content : Bytes),
      isListedType mimetype → content.length ≤ fileSizeLimit → '/' ∉ name.data →
      (postUpload folder stored now date (some (FilePart.mk name mimetype content)) fs).1 =
        .json 200 (uploadedBody folder stored now date name) ∧
      (uploadedBody folder stored now date name).get "filename" =
        some (.str (uniqueName stored name)) ∧
      (download folder (uniqueName stored name)
        (postUpload folder stored now date (some (FilePart.mk name mimetype content))
          fs).2).1 = .attachment content) := by
  refine ⟨?_, ?_, ?_, ?_, ?_, rfl, ?_⟩
  · intro content h hdot
    simp [download, h, resDownload, hdot]
  · intro h
    simp [download, h, fileNotFound]
  · intro h hdot
    simp [download, h, resDownload, hdot]
  · intro node h hdot
    simp [download, h, resDownload, hdot]
  · unfold download
    split <;> rfl
  · intro stored now date name mimetype content h hsize hname
    rw [postUpload_within _ _ _ _ _ _ _ _ h hsize]
    refine ⟨rfl, rfl, ?_⟩
    simp [download, write_same, resDownload, isDotfile_uniqueName folder stored name hname]

/-- Witness for C9, amended: an empty folder, a plain file, a directory, a hidden file
reached through `..`, and the download of a stored PDF. -/
theorem download_spec_witness :
    download "/srv/uploads" "missing.pdf" (fun _ => none) =
      (.json 404 fileNotFound, fun _ => none) ∧
    download "/srv/uploads" "a.pdf" (fun _ => some (.file [1, 2])) =
      (.attachment [1, 2], fun _ => some (.file [1, 2])) ∧
    download "/srv/uploads" "sub" (fun _ => some .dir) = (.passedOn, fun _ => some .dir) ∧
    download "/srv/uploads" "../.env" (fun _ => some (.file [1, 2])) =
      (.errorPage 404, fun _ => some (.file [1, 2])) ∧
    download "/srv/uploads" ".hidden" (fun _ => some (.file [1, 2])) =
      (.errorPage 404, fun _ => some (.file [1, 2])) ∧
    (download "/srv/uploads" (uniqueName 1700000000000 "a.pdf")
      (postUpload "/srv/uploads" 1700000000000 1700000000001 "2023-11-14T22:13:20.001Z"
        (some (FilePart.mk "a.pdf" "application/pdf" [37, 80, 68, 70])) (fun _ => none)).2).1 =
      .attachment [37, 80, 68, 70] :=
  ⟨(download_spec "/srv/uploads" "missing.pdf" (fun _ => none)).2.1 rfl,
   (download_spec "/srv/uploads" "a.pdf" (fun _ => some (.file [1, 2]))).1 [1, 2] rfl
      (by decide),
   (download_spec "/srv/uploads" "sub" (fun _ => some .dir)).2.2.1 rfl (by decide),
   (download_spec "/srv/uploads" "../.env" (fun _ => some (.file [1, 2]))).2.2.2.1
      (.file [1, 2]) rfl (by decide),
   (download_spec "/srv/uploads" ".hidden" (fun _ => some (.file [1, 2]))).2.2.2.1
      (.file [1, 2]) rfl (by decide),
   ((download_spec "/srv/uploads" "missing.pdf" (fun _ => none)).2.2.2.2.2.2 1700000000000
      1700000000001 "2023-11-14T22:13:20.001Z"
      "a.pdf" "application/pdf" [37, 80, 68, 70] (by simp [isListedType]) (by decide)
      (by decide)).2.2⟩

end EduQuest
